import Mathlib

/-!
Verification of `crc32.py`: a CLI tool that computes the CRC-32 of a file
or patches 4 bytes (big-endian) at a signed offset.  The embedding below
mirrors the Python source: files are lists of byte values (`List Nat`),
the chunked read loop becomes `chunksOf`, `zlib.crc32` is modelled by its
documented algorithm (reflected polynomial 0xEDB88320, pre/post
complement), and `do_main` becomes a pure dispatcher over parsed options.
-/

set_option maxRecDepth 100000

namespace ForceCrc

/-- One bit step of the reflected CRC-32 (polynomial 0xEDB88320):
shift right and conditionally xor the polynomial. -/
def crc_bit_step (c : Nat) : Nat :=
  if c % 2 = 1 then (c >>> 1) ^^^ 0xEDB88320 else c >>> 1

/-- One byte step: xor the byte into the low bits, then 8 bit steps. -/
def crc_byte_step (c : Nat) (b : Nat) : Nat :=
  crc_bit_step^[8] (c ^^^ b)

/-- Model of Python's `zlib.crc32(data, init)`: complement the running
value, fold the bytes, complement again. -/
def crc32_zlib (data : List Nat) (init : Nat) : Nat :=
  (data.foldl crc_byte_step (init ^^^ 0xFFFFFFFF)) ^^^ 0xFFFFFFFF

/-- The standard CRC-32 (IEEE 802.3, reflected polynomial 0xEDB88320) of a
byte sequence: initial value 0xFFFFFFFF, byte-wise folding, final
complement.  This follows the spec's words and is the reference the
chunked implementation is compared against. -/
def crc32_spec (data : List Nat) : Nat :=
  (data.foldl crc_byte_step 0xFFFFFFFF) ^^^ 0xFFFFFFFF

/-- The sequence of chunks produced by `f.read(chunksize)` in the loop
`while (chunk := f.read(chunksize))`: successive slices of at most
`chunksize` bytes; `read(0)` returns an empty chunk, ending the loop. -/
def chunksOf : Nat → List Nat → List (List Nat)
  | 0, _ => []
  | _+1, [] => []
  | n+1, a :: t => ((a :: t).take (n+1)) :: chunksOf (n+1) ((a :: t).drop (n+1))
termination_by _ l => l.length
decreasing_by simp [List.length_drop]; omega

/-- `crc32(filename, chunksize)` from the source (lines 40-46): fold each
chunk into the accumulator via `zlib.crc32`, starting from 0. -/
def crc32 (file : List Nat) (chunksize : Nat) : Nat :=
  (chunksOf chunksize file).foldl (fun checksum chunk => crc32_zlib chunk checksum) 0

/-- Byte values of Python whitespace stripped by `int(s, 16)`. -/
def isPySpace (c : Char) : Bool :=
  c == ' ' || c == '\t' || c == '\n' || c == '\r' || c.toNat == 11 || c.toNat == 12

/-- Strip leading and trailing whitespace, as `int(s, 16)` does. -/
def pyStrip (l : List Char) : List Char :=
  ((l.dropWhile isPySpace).reverse.dropWhile isPySpace).reverse

/-- Hexadecimal digit test (0-9, a-f, A-F). -/
def isHexDigitChar (c : Char) : Bool :=
  (48 ≤ c.toNat && c.toNat ≤ 57) || (97 ≤ c.toNat && c.toNat ≤ 102) ||
    (65 ≤ c.toNat && c.toNat ≤ 70)

/-- Value of a hexadecimal digit character. -/
def hexVal (c : Char) : Nat :=
  if c.toNat ≤ 57 then c.toNat - 48
  else if c.toNat ≤ 70 then c.toNat - 55
  else c.toNat - 87

/-- Digit-sequence part of Python's base-16 parsing: hex digits with
single underscores allowed between digits. -/
def hexDigitsGo : Nat → List Char → Option Nat
  | acc, [] => some acc
  | _, ['_'] => none
  | acc, '_' :: c :: rest =>
    if isHexDigitChar c then hexDigitsGo (acc * 16 + hexVal c) rest else none
  | acc, c :: rest =>
    if isHexDigitChar c then hexDigitsGo (acc * 16 + hexVal c) rest else none

/-- Unsigned body of Python's `int(s, 16)`: optional `0x`/`0X` prefix
(after which a single leading underscore is allowed), then hex digits. -/
def parseHexBody : List Char → Option Nat
  | [] => none
  | '0' :: c :: rest =>
    if c == 'x' || c == 'X' then
      match rest with
      | [] => none
      | _ :: _ => hexDigitsGo 0 rest
    else
      hexDigitsGo 0 ('0' :: c :: rest)
  | c :: rest => if isHexDigitChar c then hexDigitsGo 0 (c :: rest) else none

/-- Model of Python's `int(s, 16)`: strip whitespace, optional sign,
optional `0x` prefix, hex digits; `none` models `ValueError`. -/
def py_int_base16 (s : String) : Option Int :=
  match pyStrip s.toList with
  | [] => none
  | '-' :: rest => (parseHexBody rest).map (fun n => -(n : Int))
  | '+' :: rest => (parseHexBody rest).map (fun n => (n : Int))
  | cs => (parseHexBody cs).map (fun n => (n : Int))

/-- `hex_string_32bit` from the source (lines 48-51): reject strings
longer than 8 characters, otherwise delegate to `int(s, 16)`; `none`
models a raised `ValueError`. -/
def hex_string_32bit (s : String) : Option Int :=
  if s.length > 8 then none else py_int_base16 s

/-- Big-endian 4-byte encoding, as `value.to_bytes(4)` produces. -/
def be32 (v : Nat) : List Nat :=
  [(v >>> 24) % 256, (v >>> 16) % 256, (v >>> 8) % 256, v % 256]

/-- Absolute write offset reached by the seek on lines 80-83:
`seek(pos, SEEK_SET)` for `pos >= 0`, `seek(pos, SEEK_END)` otherwise. -/
def resolve (len : Nat) (pos : Int) : Int :=
  if 0 ≤ pos then pos else (len : Int) + pos

/-- File contents after writing `bs` at absolute offset `r`: seeking past
the end fills the gap with zero bytes, the write overwrites
`bs.length` bytes and extends the file if needed. -/
def patchBytes (file : List Nat) (r : Nat) (bs : List Nat) : List Nat :=
  file.take r ++ List.replicate (r - file.length) 0 ++ bs ++ file.drop (r + bs.length)

/-- The patch path of `do_main` (lines 79-85) as a function on file
contents: seek to the resolved offset (a negative absolute offset makes
the seek raise), then write `insert.to_bytes(4, signed=False)` (which
raises `OverflowError` outside `[0, 2^32)`); `none` models an exception
after the file was opened. -/
def patch_file (file : List Nat) (v : Int) (pos : Int) : Option (List Nat) :=
  if resolve file.length pos < 0 then none
  else if 0 ≤ v ∧ v < 2^32 then
    some (patchBytes file (resolve file.length pos).toNat (be32 v.toNat))
  else none

/-- Parsed options of the argument parser (lines 53-60). -/
structure Opts where
  filename : String
  binary : Bool
  check : Bool
  index_random : Option Int
  verbose : Bool
  insert : Option Int
  position : Option Int

/-- Python truthiness of an optional integer option: `None` and `0` are
falsy, every other integer is truthy. -/
def truthy : Option Int → Bool
  | none => false
  | some n => n != 0

/-- Model of Python's `random.randint(lo, hi)`: a value in `[lo, hi]`
determined by the underlying randomness `r`. -/
def randint (lo hi : Nat) (r : Nat) : Nat :=
  lo + r % (hi - lo + 1)

/-- Effect of lines 73-76: when `opts.index_random` is truthy, `position`
is overwritten with it and `insert` with `random.randint(1, 2**32-1)`. -/
def effOpts (o : Opts) (r : Nat) : Opts :=
  if truthy o.index_random then
    { o with position := o.index_random,
             insert := some ((randint 1 (2^32 - 1) r : Nat) : Int) }
  else o

/-- The terminal operation `do_main` selects. -/
inductive Action where
  | check : Action
  | patch : Int → Int → Action
  | noop : Action
deriving DecidableEq

/-- Mode selection of `do_main` (lines 62-89): the check flag first, then
the truthiness test `if opts.insert and opts.position` after the
random-insert rewrite of lines 73-76. -/
def do_main_action (o : Opts) (r : Nat) : Action :=
  if o.check then Action.check
  else
    let o2 := effOpts o r
    if truthy o2.insert && truthy o2.position then
      Action.patch (o2.insert.getD 0) (o2.position.getD 0)
    else Action.noop

/-- Run of `do_main` on a file's contents: the Boolean records whether a
file handle was opened (check mode opens read-only, patch mode opens
`r+b`); the Option is the resulting contents, `none` when an exception
interrupts the patch after the open. -/
def do_main_run (o : Opts) (file : List Nat) (r : Nat) : Bool × Option (List Nat) :=
  match do_main_action o r with
  | Action.check => (true, some file)
  | Action.patch v p => (true, patch_file file v p)
  | Action.noop => (false, some file)

/-- Lowercase hexadecimal digit character. -/
def hexDigitChar (n : Nat) : Char :=
  if n < 10 then Char.ofNat (48 + n) else Char.ofNat (87 + n)

/-- The `f"{answer:08x}"` formatting: 8 lowercase hex digits. -/
def toHex8 (n : Nat) : String :=
  String.mk ((List.range 8).map (fun i => hexDigitChar ((n >>> ((7 - i) * 4)) % 16)))

/-- One item written to `sys.stdout`: a `print`ed text line or the raw
bytes of `sys.stdout.buffer.write`. -/
inductive Out where
  | line : String → Out
  | raw : List Nat → Out
deriving DecidableEq

/-- Everything `do_main` writes to standard output, in order.  Both the
verbose `print` calls (lines 66 and 87) and the terse results (lines
68, 70 and 88) target `sys.stdout`. -/
def do_main_output (o : Opts) (file : List Nat) (r : Nat) : List Out :=
  if o.check then
    (if o.verbose then
      [Out.line ("CRC32 of " ++ o.filename ++ " is: " ++ toHex8 (crc32 file 65536))]
     else [])
    ++ (if o.binary then [Out.raw (be32 (crc32 file 65536))]
        else [Out.line (toHex8 (crc32 file 65536))])
  else
    let o2 := effOpts o r
    if truthy o2.insert && truthy o2.position then
      match patch_file file (o2.insert.getD 0) (o2.position.getD 0) with
      | none => []
      | some _ =>
        (if o.verbose then
          [Out.line ("Wrote target selected CRC32 of " ++ toHex8 (o2.insert.getD 0).toNat
            ++ " to " ++ o.filename ++ " at position: " ++ toString (o2.position.getD 0))]
         else [])
        ++ [Out.line (toHex8 (o2.insert.getD 0).toNat)]
    else []

/-- Raw command-line option values before argparse type conversion: the
`--insert` argument is still a string. -/
structure RawArgs where
  filename : String
  binary : Bool
  check : Bool
  index_random : Option Int
  verbose : Bool
  insert : Option String
  position : Option Int

/-- The argparse phase: the `type=hex_string_32bit` conversion runs on the
`--insert` string before `do_main`; a conversion failure aborts the
program (`none`) with no file access. -/
def parse_args (a : RawArgs) : Option Opts :=
  match a.insert with
  | none =>
    some ⟨a.filename, a.binary, a.check, a.index_random, a.verbose, none, a.position⟩
  | some s =>
    match hex_string_32bit s with
    | none => none
    | some v =>
      some ⟨a.filename, a.binary, a.check, a.index_random, a.verbose, some v, a.position⟩

/-- Whole program: argument parsing then `do_main`. -/
def run_cli (a : RawArgs) (file : List Nat) (r : Nat) : Option (Bool × Option (List Nat)) :=
  (parse_args a).map (fun o => do_main_run o file r)

/-- Concrete options for the C3 counterexample: `--insert 0 --position 5`. -/
def optsInsertZero : Opts :=
  { filename := "f", binary := false, check := false, index_random := none,
    verbose := false, insert := some 0, position := some 5 }

/-- Concrete options for the C3 counterexample: `--insert 7 --position 0`. -/
def optsPositionZero : Opts :=
  { filename := "f", binary := false, check := false, index_random := none,
    verbose := false, insert := some 7, position := some 0 }

/-- Concrete options for the C4 counterexample: `--insert-random-at 0`. -/
def optsRandomZero : Opts :=
  { filename := "f", binary := false, check := false, index_random := some 0,
    verbose := false, insert := none, position := none }

/-- Concrete options for the C6 counterexample: a verbose explicit insert. -/
def optsVerbosePatch : Opts :=
  { filename := "f", binary := false, check := false, index_random := none,
    verbose := true, insert := some 1, position := some 1 }

/-- Concrete options used in the C8 anchor: `--insert-random-at 5`. -/
def optsRandomFive : Opts :=
  { filename := "f", binary := false, check := false, index_random := some 5,
    verbose := false, insert := none, position := none }

/-- Concrete options for C10: `--insert -1 --position p` with `p` open. -/
def optsInsertNeg (p : Int) : Opts :=
  { filename := "f", binary := false, check := false, index_random := none,
    verbose := false, insert := some (-1), position := some p }

/-- Concrete options for the C3 witness: `--insert 3 --position -2`. -/
def optsExplicit : Opts :=
  { filename := "f", binary := false, check := false, index_random := none,
    verbose := false, insert := some 3, position := some (-2) }

/-- Concrete options for the C5 witness: the check flag together with
every patch option. -/
def optsCheck : Opts :=
  { filename := "f", binary := false, check := true, index_random := some 9,
    verbose := false, insert := some 7, position := some 7 }

/-- Concrete raw arguments for the C7 witness: a 9-character `--insert`. -/
def rawOversized : RawArgs :=
  { filename := "f", binary := false, check := false, index_random := none,
    verbose := false, insert := some ("aabbccdd0"), position := some 1 }

theorem xor_mask_cancel (x : Nat) : (x ^^^ 0xFFFFFFFF) ^^^ 0xFFFFFFFF = x := by
  rw [Nat.xor_assoc, Nat.xor_self, Nat.xor_zero]

theorem crc32_zlib_nil (v : Nat) : crc32_zlib [] v = v := by
  simp only [crc32_zlib, List.foldl_nil]
  exact xor_mask_cancel v

theorem crc32_zlib_append (a b : List Nat) (v : Nat) :
    crc32_zlib b (crc32_zlib a v) = crc32_zlib (a ++ b) v := by
  simp only [crc32_zlib, List.foldl_append]
  rw [xor_mask_cancel]

theorem foldl_crc32_zlib_flatten (chunks : List (List Nat)) : ∀ v : Nat,
    chunks.foldl (fun checksum chunk => crc32_zlib chunk checksum) v
      = crc32_zlib chunks.flatten v := by
  induction chunks with
  | nil => intro v; simp only [List.foldl_nil, List.flatten_nil]; exact (crc32_zlib_nil v).symm
  | cons c cs ih =>
    intro v
    simp only [List.foldl_cons, List.flatten_cons, ih]
    exact crc32_zlib_append c cs.flatten v

theorem flatten_chunksOf : ∀ (n : Nat) (l : List Nat), 1 ≤ n →
    (chunksOf n l).flatten = l := by
  intro n l
  induction n, l using chunksOf.induct with
  | case1 l => intro h; omega
  | case2 n => intro _; simp [chunksOf]
  | case3 n a t ih =>
    intro _
    rw [chunksOf, List.flatten_cons, ih (by omega)]
    exact List.take_append_drop _ _

theorem crc32_eq_spec (file : List Nat) (chunksize : Nat) (h : 1 ≤ chunksize) :
    crc32 file chunksize = crc32_spec file := by
  unfold crc32
  rw [foldl_crc32_zlib_flatten, flatten_chunksOf chunksize file h]
  simp only [crc32_zlib, crc32_spec, Nat.zero_xor]

/-- C1: for every file and every chunk size at least 1, the chunked
`crc32` equals the standard CRC-32 (reflected polynomial 0xEDB88320) of
the whole contents; the empty file yields 0, and the 16-byte all-zero
file yields the standard CRC-32 of 16 zero bytes, 0xECBB4B55. -/
theorem crc32_chunked_matches_standard (file : List Nat) (chunksize : Nat)
    (h : 1 ≤ chunksize) :
    crc32 file chunksize = crc32_spec file
    ∧ crc32 ([] : List Nat) chunksize = 0
    ∧ crc32 (List.replicate 16 0) chunksize = 0xECBB4B55 := by
  refine ⟨crc32_eq_spec file chunksize h, ?_, ?_⟩
  · rw [crc32_eq_spec [] chunksize h]
    decide
  · rw [crc32_eq_spec (List.replicate 16 0) chunksize h]
    decide

/-- Witness for C1 at chunk size 4 and the file 0x31..0x39 ("123456789"),
whose standard CRC-32 is the well-known check value 0xCBF43926. -/
theorem crc32_chunked_matches_standard_witness :
    1 ≤ 4
    ∧ crc32 [0x31, 0x32, 0x33, 0x34, 0x35, 0x36, 0x37, 0x38, 0x39] 4
        = crc32_spec [0x31, 0x32, 0x33, 0x34, 0x35, 0x36, 0x37, 0x38, 0x39]
    ∧ crc32_spec [0x31, 0x32, 0x33, 0x34, 0x35, 0x36, 0x37, 0x38, 0x39] = 0xCBF43926 := by
  refine ⟨by decide, ?_, by decide⟩
  exact (crc32_chunked_matches_standard _ 4 (by decide)).1

theorem prefix_length (file : List Nat) (r : Nat) :
    (file.take r ++ List.replicate (r - file.length) 0).length = r := by
  simp only [List.length_append, List.length_take, List.length_replicate]
  omega

theorem patchBytes_parts (file : List Nat) (r : Nat) (bs : List Nat) :
    patchBytes file r bs
      = (file.take r ++ List.replicate (r - file.length) 0)
        ++ (bs ++ file.drop (r + bs.length)) := by
  simp [patchBytes, List.append_assoc]

theorem take_of_length_append (l₁ l₂ : List Nat) (r : Nat) (h : l₁.length = r) :
    (l₁ ++ l₂).take r = l₁ := by
  subst h; exact List.take_left _ _

theorem drop_of_length_append (l₁ l₂ : List Nat) (r : Nat) (h : l₁.length = r) :
    (l₁ ++ l₂).drop r = l₂ := by
  subst h; exact List.drop_left _ _

theorem patch_file_eq_some {file : List Nat} {v pos : Int} {out : List Nat}
    (h : patch_file file v pos = some out) :
    0 ≤ resolve file.length pos ∧ 0 ≤ v ∧ v < 2^32
    ∧ out = patchBytes file (resolve file.length pos).toNat (be32 v.toNat) := by
  unfold patch_file at h
  split at h
  · exact absurd h (by simp)
  · split at h
    · rename_i h1 h2
      injection h with h3
      exact ⟨by omega, h2.1, h2.2, h3.symm⟩
    · exact absurd h (by simp)

/-- C2: a successful patch of file F with value V at signed offset P makes
the 4 bytes at the resolved offset (P, or file length + P when P < 0) the
big-endian encoding of V, leaves every other byte of F unchanged, and in
particular turns the 16-byte all-zero file patched with 0xCAFECAFE at
offset -8 into 00*8 CA FE CA FE 00*4. -/
theorem patch_roundtrip (file : List Nat) (v pos : Int) (out : List Nat)
    (h : patch_file file v pos = some out) :
    (out.drop (resolve file.length pos).toNat).take 4 = be32 v.toNat
    ∧ (∀ j : Nat, j < (resolve file.length pos).toNat → j < file.length →
        out[j]? = file[j]?)
    ∧ (∀ j : Nat, (resolve file.length pos).toNat + 4 ≤ j → out[j]? = file[j]?)
    ∧ patch_file (List.replicate 16 0) 0xCAFECAFE (-8)
        = some [0, 0, 0, 0, 0, 0, 0, 0, 0xCA, 0xFE, 0xCA, 0xFE, 0, 0, 0, 0] := by
  obtain ⟨hr, hv0, hv1, hout⟩ := patch_file_eq_some h
  have hbs : (be32 v.toNat).length = 4 := rfl
  have hpre := prefix_length file (resolve file.length pos).toNat
  refine ⟨?_, ?_, ?_, by decide⟩
  · rw [hout, patchBytes_parts, drop_of_length_append _ _ _ hpre,
      take_of_length_append _ _ _ hbs]
  · intro j hj hjl
    rw [hout, patchBytes_parts,
      List.getElem?_append_left (by rw [hpre]; exact hj),
      List.getElem?_append_left (by simp only [List.length_take]; omega)]
    exact List.getElem?_take_of_lt hj
  · intro j hj
    rw [hout, patchBytes_parts,
      List.getElem?_append_right (by rw [hpre]; omega), hpre,
      List.getElem?_append_right (by rw [hbs]; omega), hbs,
      List.getElem?_drop]
    congr 1
    omega

/-- Witness for C2: the docstring scenario, a 16-byte all-zero file
patched with 0xCAFECAFE at offset -8. -/
theorem patch_roundtrip_witness :
    patch_file (List.replicate 16 0) 0xCAFECAFE (-8)
      = some [0, 0, 0, 0, 0, 0, 0, 0, 0xCA, 0xFE, 0xCA, 0xFE, 0, 0, 0, 0]
    ∧ (([0, 0, 0, 0, 0, 0, 0, 0, 0xCA, 0xFE, 0xCA, 0xFE, 0, 0, 0, 0] : List Nat).drop
        (resolve (List.replicate 16 (0 : Nat)).length (-8)).toNat).take 4
      = be32 ((0xCAFECAFE : Int)).toNat := by
  have h : patch_file (List.replicate 16 0) 0xCAFECAFE (-8)
      = some [0, 0, 0, 0, 0, 0, 0, 0, 0xCA, 0xFE, 0xCA, 0xFE, 0, 0, 0, 0] := by decide
  exact ⟨h, (patch_roundtrip _ _ _ _ h).1⟩

theorem patchBytes_fixpoint (pre bs suf : List Nat) (r : Nat) (hpre : pre.length = r) :
    patchBytes (pre ++ (bs ++ suf)) r bs = pre ++ (bs ++ suf) := by
  have hzero : r - (pre ++ (bs ++ suf)).length = 0 := by
    simp only [List.length_append]; omega
  have hdrop : List.drop (r + bs.length) (pre ++ (bs ++ suf)) = suf := by
    rw [← List.append_assoc]
    exact drop_of_length_append (pre ++ bs) suf _
      (by simp only [List.length_append]; omega)
  unfold patchBytes
  rw [take_of_length_append pre (bs ++ suf) r hpre, hzero, List.replicate_zero, hdrop]
  simp

theorem patch_file_length {file : List Nat} {v pos : Int} {out : List Nat}
    (h : patch_file file v pos = some out) :
    out.length = max file.length ((resolve file.length pos).toNat + 4) := by
  obtain ⟨hr, hv0, hv1, hout⟩ := patch_file_eq_some h
  rw [hout]
  unfold patchBytes
  simp only [List.length_append, List.length_take, List.length_replicate,
    List.length_drop, be32, List.length_cons, List.length_nil]
  omega

theorem resolve_after {file : List Nat} {v pos : Int} {out : List Nat}
    (hcase : 0 ≤ pos ∨ pos ≤ -4) (h : patch_file file v pos = some out) :
    resolve out.length pos = resolve file.length pos := by
  have hr := (patch_file_eq_some h).1
  have hlen := patch_file_length h
  rcases hcase with hc | hc
  · unfold resolve
    rw [if_pos hc, if_pos hc]
  · have hneg : ¬ (0 ≤ pos) := by omega
    unfold resolve at hr hlen ⊢
    rw [if_neg hneg] at hr hlen ⊢
    rw [if_neg hneg]
    have : out.length = file.length := by omega
    rw [this]

/-- C9 amended: the patch is idempotent for every non-negative offset and
for every negative offset at most -4 (the cases in which a repeated patch
resolves to the same absolute position); the original claim fails for
offsets -1, -2, -3, where the first patch grows the file and shifts the
resolved position. -/
theorem patch_idempotent (file : List Nat) (v pos : Int) (out : List Nat)
    (hcase : 0 ≤ pos ∨ pos ≤ -4) (h : patch_file file v pos = some out) :
    patch_file out v pos = some out := by
  have hres := resolve_after hcase h
  obtain ⟨hr, hv0, hv1, hout⟩ := patch_file_eq_some h
  have hshape : out = (file.take (resolve file.length pos).toNat
        ++ List.replicate ((resolve file.length pos).toNat - file.length) 0)
      ++ (be32 v.toNat
        ++ file.drop ((resolve file.length pos).toNat + (be32 v.toNat).length)) := by
    rw [hout, patchBytes_parts]
  unfold patch_file
  rw [hres, if_neg (by omega), if_pos ⟨hv0, hv1⟩]
  congr 1
  conv_lhs => rw [hshape]
  rw [patchBytes_fixpoint _ _ _ _ (prefix_length file _)]
  exact hshape.symm

/-- Witness for C9: a patch at offset 0 of a 5-byte file, applied twice. -/
theorem patch_idempotent_witness :
    ((0 : Int) ≤ 0 ∨ (0 : Int) ≤ -4)
    ∧ patch_file [9, 9, 9, 9, 9] 1 0 = some [0, 0, 0, 1, 9]
    ∧ patch_file [0, 0, 0, 1, 9] 1 0 = some [0, 0, 0, 1, 9] := by
  refine ⟨Or.inl (by decide), by decide, ?_⟩
  exact patch_idempotent [9, 9, 9, 9, 9] 1 0 [0, 0, 0, 1, 9] (Or.inl (by decide)) (by decide)

/-- Counterexample to C9 as stated: patching a 2-byte file at offset -1
succeeds, but applying the same patch twice does not reproduce the
single-patch contents (the first patch grows the file from 2 to 5
bytes, so the second resolves to position 4 instead of 1). -/
theorem patch_idempotent_counterexample :
    patch_file [0, 0] 1 (-1) = some [0, 0, 0, 0, 1]
    ∧ patch_file [0, 0, 0, 0, 1] 1 (-1) ≠ some [0, 0, 0, 0, 1] := by decide

theorem randint_pos (r : Nat) : 1 ≤ randint 1 (2^32 - 1) r :=
  Nat.le_add_right 1 _

theorem randint_le (r : Nat) : randint 1 (2^32 - 1) r ≤ 2^32 - 1 := by
  unfold randint
  have h : r % (2^32 - 1 - 1 + 1) < 2^32 - 1 - 1 + 1 := Nat.mod_lt r (by norm_num)
  omega

theorem randint_cast_ne_zero (r : Nat) : ((randint 1 (2^32 - 1) r : Nat) : Int) ≠ 0 := by
  have h := randint_pos r
  exact Int.natCast_ne_zero.mpr (by omega)

theorem random_mode_action (o : Opts) (n : Int) (r : Nat)
    (hc : o.check = false) (hir : o.index_random = some n) (hn : n ≠ 0) :
    do_main_action o r = Action.patch ((randint 1 (2^32 - 1) r : Nat) : Int) n := by
  have hnat : ¬ randint 1 (2^32 - 1) r = 0 := by
    have h := randint_pos r; omega
  norm_num at hnat
  unfold do_main_action effOpts
  rw [hc, hir]
  simp [truthy, hn, hnat]

/-- C3 counterexample: with `--insert 0 --position 5` and with
`--insert 7 --position 0` the dispatcher performs no operation, so it
does not invoke the patcher for value 0 or position 0 as the claim
states. -/
theorem explicit_insert_counterexample :
    do_main_action optsInsertZero 0 = Action.noop
    ∧ Action.noop ≠ Action.patch 0 5
    ∧ do_main_action optsPositionZero 0 = Action.noop
    ∧ Action.noop ≠ Action.patch 7 0 := by decide

/-- C3 amended: with the check flag unset and the random option falsy,
the dispatcher invokes the patcher with the supplied value and position
exactly when both are supplied and both are nonzero (Python truthiness);
a zero value or zero position is silently skipped. -/
theorem explicit_insert_mode (o : Opts) (v p : Int) (r : Nat)
    (hc : o.check = false) (hir : truthy o.index_random = false)
    (hi : o.insert = some v) (hp : o.position = some p)
    (hv : v ≠ 0) (hp0 : p ≠ 0) :
    do_main_action o r = Action.patch v p := by
  unfold do_main_action effOpts
  rw [hc, hir]
  simp only [Bool.false_eq_true, if_false]
  rw [hi, hp]
  simp [truthy, hv, hp0]

/-- Witness for C3 at `--insert 3 --position -2`. -/
theorem explicit_insert_mode_witness :
    optsExplicit.check = false ∧ truthy optsExplicit.index_random = false
    ∧ optsExplicit.insert = some 3 ∧ optsExplicit.position = some (-2)
    ∧ (3 : Int) ≠ 0 ∧ (-2 : Int) ≠ 0
    ∧ do_main_action optsExplicit 0 = Action.patch 3 (-2) :=
  ⟨rfl, rfl, rfl, rfl, by decide, by decide,
    explicit_insert_mode optsExplicit 3 (-2) 0 rfl rfl rfl rfl (by decide) (by decide)⟩

/-- C4 counterexample: `--insert-random-at 0` triggers nothing, because
the trigger is Python truthiness of the offset and 0 is falsy; the
dispatcher performs no operation instead of patching at offset 0. -/
theorem random_insert_zero_counterexample :
    do_main_action optsRandomZero 0 = Action.noop
    ∧ Action.noop ≠ Action.patch ((randint 1 (2^32 - 1) 0 : Nat) : Int) 0 := by decide

/-- C4 amended: random-insert mode triggers for every nonzero offset N
(offset 0 is silently skipped): the dispatcher invokes the patcher at N
with the generated value `randint 1 (2^32-1)`, which is nonzero. -/
theorem random_insert_mode (o : Opts) (n : Int) (r : Nat)
    (hc : o.check = false) (hir : o.index_random = some n) (hn : n ≠ 0) :
    do_main_action o r = Action.patch ((randint 1 (2^32 - 1) r : Nat) : Int) n
    ∧ ((randint 1 (2^32 - 1) r : Nat) : Int) ≠ 0 :=
  ⟨random_mode_action o n r hc hir hn, randint_cast_ne_zero r⟩

/-- Witness for C4 at `--insert-random-at 5` with randomness 0. -/
theorem random_insert_mode_witness :
    optsRandomFive.check = false ∧ optsRandomFive.index_random = some 5
    ∧ (5 : Int) ≠ 0
    ∧ do_main_action optsRandomFive 0 = Action.patch ((randint 1 (2^32 - 1) 0 : Nat) : Int) 5
    ∧ ((randint 1 (2^32 - 1) 0 : Nat) : Int) ≠ 0 :=
  ⟨rfl, rfl, by decide,
    (random_insert_mode optsRandomFive 5 0 rfl rfl (by decide)).1,
    (random_insert_mode optsRandomFive 5 0 rfl rfl (by decide)).2⟩

/-- C5: whenever the check flag is set, the dispatcher selects check mode
regardless of any patch options, the file is opened but its contents are
returned unmodified, and the checksum is printed (as a hex line or as raw
bytes). -/
theorem check_mode_precedence (o : Opts) (file : List Nat) (r : Nat)
    (h : o.check = true) :
    do_main_action o r = Action.check
    ∧ do_main_run o file r = (true, some file)
    ∧ (Out.line (toHex8 (crc32 file 65536)) ∈ do_main_output o file r
       ∨ Out.raw (be32 (crc32 file 65536)) ∈ do_main_output o file r) := by
  have ha : do_main_action o r = Action.check := by simp [do_main_action, h]
  refine ⟨ha, by simp [do_main_run, ha], ?_⟩
  by_cases hb : o.binary
  · right; simp [do_main_output, h, hb]
  · left; simp [do_main_output, h, hb]

/-- Witness for C5: check flag set together with every patch option, on
the file 00 01. -/
theorem check_mode_precedence_witness :
    optsCheck.check = true
    ∧ do_main_action optsCheck 0 = Action.check
    ∧ do_main_run optsCheck [0, 1] 0 = (true, some [0, 1])
    ∧ (Out.line (toHex8 (crc32 [0, 1] 65536)) ∈ do_main_output optsCheck [0, 1] 0
       ∨ Out.raw (be32 (crc32 [0, 1] 65536)) ∈ do_main_output optsCheck [0, 1] 0) :=
  ⟨rfl, (check_mode_precedence optsCheck [0, 1] 0 rfl).1,
    (check_mode_precedence optsCheck [0, 1] 0 rfl).2.1,
    (check_mode_precedence optsCheck [0, 1] 0 rfl).2.2⟩

/-- C8: the value generated in random-insert mode, `randint 1 (2^32-1)`,
lies in [1, 2^32-1] for every underlying randomness, hence is never 0;
the dispatcher patches with exactly this value. -/
theorem random_value_in_range (r : Nat) :
    1 ≤ randint 1 (2^32 - 1) r
    ∧ randint 1 (2^32 - 1) r ≤ 2^32 - 1
    ∧ randint 1 (2^32 - 1) r ≠ 0
    ∧ do_main_action optsRandomFive r = Action.patch ((randint 1 (2^32 - 1) r : Nat) : Int) 5 := by
  refine ⟨randint_pos r, randint_le r, ?_, ?_⟩
  · have h := randint_pos r; omega
  · exact random_mode_action optsRandomFive 5 r rfl rfl (by decide)

/-- C6 counterexample: with a verbose explicit insert, the bytes written
to standard output differ from the non-verbose run, because both the
diagnostic `print` and the terse result target `sys.stdout`; the primary
output stream is not byte-identical under `--verbose`. -/
theorem verbose_stream_counterexample :
    do_main_output optsVerbosePatch [0, 0, 0, 0, 0] 0
      ≠ do_main_output { optsVerbosePatch with verbose := false } [0, 0, 0, 0, 0] 0 := by
  decide

/-- C6 amended: verbose diagnostics go to the same stream (stdout) as the
primary output, printed before it; the non-verbose output is always a
suffix of the verbose output, so the terse result is preserved but the
stream as a whole is not byte-identical. -/
theorem verbose_prefixes_output (o : Opts) (file : List Nat) (r : Nat) :
    List.IsSuffix (do_main_output { o with verbose := false } file r)
      (do_main_output { o with verbose := true } file r) := by
  obtain ⟨fn, bin, chk, ir, vb, ins, pos⟩ := o
  by_cases hc : chk
  · by_cases hb : bin <;>
      simp [do_main_output, hc, hb, List.suffix_cons]
  · by_cases hir : truthy ir
    · simp only [do_main_output, effOpts]
      simp [hc, hir]
      split
      · split <;> simp [List.suffix_cons]
      · exact List.suffix_refl _
    · simp only [do_main_output, effOpts]
      simp [hc, hir]
      split
      · split <;> simp [List.suffix_cons]
      · exact List.suffix_refl _

/-- C7: an `--insert` argument longer than 8 characters makes the
argparse type conversion `hex_string_32bit` raise, aborting the program
before `do_main` runs, so no file is ever opened. -/
theorem oversized_hex_rejected (a : RawArgs) (s : String) (file : List Nat) (r : Nat)
    (hs : a.insert = some s) (hlen : 8 < s.length) :
    hex_string_32bit s = none ∧ run_cli a file r = none := by
  have h1 : hex_string_32bit s = none := by
    unfold hex_string_32bit
    rw [if_pos (by omega)]
  refine ⟨h1, ?_⟩
  simp [run_cli, parse_args, hs, h1]

/-- Witness for C7 at the 9-character argument "aabbccdd0". -/
theorem oversized_hex_rejected_witness :
    rawOversized.insert = some ("aabbccdd0") ∧ 8 < "aabbccdd0".length
    ∧ hex_string_32bit ("aabbccdd0") = none ∧ run_cli rawOversized [0] 0 = none :=
  ⟨rfl, by decide,
    (oversized_hex_rejected rawOversized ("aabbccdd0") [0] 0 rfl (by decide)).1,
    (oversized_hex_rejected rawOversized ("aabbccdd0") [0] 0 rfl (by decide)).2⟩

/-- C10: the `--insert` validator accepts every string of at most 8
characters that Python base-16 parsing accepts, including a negative form
like "-1" and a prefixed form like "0xff"; a negative accepted value with
a truthy position reaches the write path, where the unsigned 4-byte
encoding fails after the file has been opened (opened flag true, result
none). -/
theorem insert_validator_permissive :
    (∀ s : String, s.length ≤ 8 → hex_string_32bit s = py_int_base16 s)
    ∧ hex_string_32bit ("-1") = some (-1)
    ∧ hex_string_32bit ("0xff") = some 255
    ∧ (∀ (file : List Nat) (p : Int) (r : Nat), p ≠ 0 →
        do_main_run (optsInsertNeg p) file r = (true, none)) := by
  refine ⟨?_, by decide, by decide, ?_⟩
  · intro s h
    unfold hex_string_32bit
    rw [if_neg (by omega)]
  · intro file p r hp
    have ha : do_main_action (optsInsertNeg p) r = Action.patch (-1) p := by
      unfold do_main_action effOpts optsInsertNeg
      simp [truthy, hp]
    simp only [do_main_run, ha]
    have hpf : patch_file file (-1) p = none := by
      unfold patch_file
      split
      · rfl
      · rw [if_neg (by norm_num)]
    rw [hpf]

/-- Witness for C10 at the 2-character string "ff" and position -3. -/
theorem insert_validator_permissive_witness :
    ("ff".length ≤ 8 ∧ hex_string_32bit ("ff") = py_int_base16 ("ff"))
    ∧ ((-3 : Int) ≠ 0 ∧ do_main_run (optsInsertNeg (-3)) [1, 2] 7 = (true, none)) :=
  ⟨⟨by decide, insert_validator_permissive.1 ("ff") (by decide)⟩,
   ⟨by decide, insert_validator_permissive.2.2.2 [1, 2] (-3) 7 (by decide)⟩⟩

end ForceCrc
